import Mathlib

/-!
Verification of the crypto-analysis engine of the discord bot repository.

The embedding translates the two service classes (`CryptoService` in the
first unnamed source file, `PolymarketService` in the second), the slash
command handler `execute` in src/handlers/analyze.js, and the security
constants of the configuration module.  Prices, indicator values and
volumes are modelled as rationals; the logarithmic volume weighting of the
sentiment aggregation uses real numbers because the source computes
Math.log.  JavaScript truthiness checks on numbers (false for 0 and for
absent values) are modelled explicitly.
-/

namespace DiscordBot

/-! ## CryptoService: data model -/

/-- One OHLCV bar, as produced by `fetchKlineData`'s mapping over the raw
kline tuples (source field `open` is `openPrice` here because `open` is a
Lean keyword). -/
structure Candle where
  timestamp : ℤ
  openPrice : ℚ
  high : ℚ
  low : ℚ
  close : ℚ
  volume : ℚ
  closeTime : ℤ
  quoteVolume : ℚ
  trades : ℤ
  takerBuyVolume : ℚ
  takerBuyQuoteVolume : ℚ
deriving DecidableEq, Repr

/-- The per-interval record returned by `fetchKlineData`. -/
structure TimeframeSeries where
  interval : String
  candles : List Candle
  currentPrice : ℚ
  high24h : ℚ
  low24h : ℚ
  volume24h : ℚ
deriving DecidableEq, Repr

/-- JavaScript `array.slice(-n)`: the trailing `min n (length)` elements. -/
def takeLast {α : Type} (n : ℕ) (l : List α) : List α :=
  l.drop (l.length - n)

/-- `Math.max(...)` over a list with a default for the empty case (in the
source the empty case would be `-Infinity`; it is unreachable where used). -/
def listMaxD (l : List ℚ) (d : ℚ) : ℚ :=
  match l with
  | [] => d
  | h :: t => t.foldl max h

/-- `Math.min(...)` over a list with a default for the empty case. -/
def listMinD (l : List ℚ) (d : ℚ) : ℚ :=
  match l with
  | [] => d
  | h :: t => t.foldl min h

/-- The pure tail of `fetchKlineData`: given the parsed candles of one
interval, build the `TimeframeSeries`.  The source reads
`candles[candles.length - 1].close`: on an empty candle array that indexes
a missing element (a TypeError at run time), so the embedding is partial
and returns `none` exactly there. -/
def fetchKlineDataProcess (interval : String) (candles : List Candle) :
    Option TimeframeSeries :=
  match candles.getLast? with
  | none => none
  | some last =>
    let recent := takeLast 96 candles
    some { interval := interval
           candles := candles
           currentPrice := last.close
           high24h := listMaxD (recent.map fun c => c.high) 0
           low24h := listMinD (recent.map fun c => c.low) 0
           volume24h := recent.foldl (fun s c => s + c.volume) 0 }

/-- The snapshot assembled by `fetchCryptoData`.  The four ticker-derived
fields start as `null` and stay `null` when the independent ticker fetch
fails, hence `Option`. -/
structure CryptoData where
  symbol : String
  currentPrice : Option ℚ
  priceChange24h : Option ℚ
  priceChangePercent24h : Option ℚ
  volume24h : Option ℚ
  timeframes : List (String × TimeframeSeries)
deriving DecidableEq, Repr

/-! ## CryptoService: cache (`this.cache`, `cacheTimeout = 60000` ms) -/

/-- `this.cacheTimeout` in milliseconds. -/
def cacheTimeout : ℕ := 60000

/-- One stored cache entry `{ data, timestamp }`. -/
structure CacheEntry where
  data : CryptoData
  timestamp : ℕ
deriving DecidableEq, Repr

/-- The cache key template string of `fetchCryptoData`. -/
def cacheKey (symbol : String) (timeframe : Option String) : String :=
  symbol ++ "-" ++ timeframe.getD "all"

/-- `Map.get` on the cache, modelled as first-match lookup in an
association list ordered newest binding first. -/
def cacheLookup (cache : List (String × CacheEntry)) (key : String) :
    Option CacheEntry :=
  (cache.find? fun p => p.1 == key).map fun p => p.2

/-- `Map.set`: prepend the new binding; `cacheLookup` takes the newest. -/
def cacheSet (cache : List (String × CacheEntry)) (key : String)
    (entry : CacheEntry) : List (String × CacheEntry) :=
  (key, entry) :: cache

/-- `fetchCryptoData(symbol, timeframe)` as a state transformer over its
cache.  `now` is `Date.now()`; `fresh` is the snapshot the fan-out over
timeframes plus ticker fetch would assemble if performed now.  The result
carries the returned data, the cache after the call, and whether an
upstream fetch was performed.  A stored entry is served while
`now - timestamp < cacheTimeout`; a stale entry falls through to a fresh
fetch which overwrites the entry.  No other code path touches the cache:
expiry is decided only by this read-time comparison. -/
def fetchCryptoData (symbol : String) (timeframe : Option String)
    (now : ℕ) (cache : List (String × CacheEntry)) (fresh : CryptoData) :
    CryptoData × List (String × CacheEntry) × Bool :=
  let key := cacheKey symbol timeframe
  match cacheLookup cache key with
  | some cached =>
    if now - cached.timestamp < cacheTimeout then
      (cached.data, cache, false)
    else
      (fresh, cacheSet cache key ⟨fresh, now⟩, true)
  | none => (fresh, cacheSet cache key ⟨fresh, now⟩, true)

/-! ## CryptoService: technical analysis and signal fusion -/

/-- The last computed MACD point; the library names the line field `MACD`. -/
structure Macd where
  MACD : ℚ
  signal : ℚ
  histogram : ℚ
deriving DecidableEq, Repr

/-- The last computed Bollinger Bands point. -/
structure Bollinger where
  upper : ℚ
  middle : ℚ
  lower : ℚ
deriving DecidableEq, Repr

/-- The headline fields of the object built by
`calculateTechnicalIndicators` (aliases of the 1d reading when present;
`null` otherwise), which are all that `generateSignals` and
`calculateRiskMetrics` read. -/
structure TechnicalAnalysis where
  rsi : Option ℚ
  macd : Option Macd
  sma20 : Option ℚ
  ema20 : Option ℚ
  bollingerBands : Option Bollinger
deriving DecidableEq, Repr

/-- The three-valued directional lean used throughout the source
(the string literals BULLISH / BEARISH / NEUTRAL). -/
inductive Vote where
  | BULLISH
  | BEARISH
  | NEUTRAL
deriving DecidableEq, Repr

/-- The overall trading verdict.  The source decorates the BUY and SELL
display strings with an emoji; the classification itself is three-valued. -/
inductive Signal where
  | BUY
  | SELL
  | HOLD
deriving DecidableEq, Repr

/-- JavaScript truthiness of a possibly absent number: `if (x)` is false
both when the field is absent (null/undefined) and when it equals 0. -/
def truthy (x : Option ℚ) : Bool :=
  match x with
  | none => false
  | some v => v != 0

/-- The RSI branch of `generateSignals`.  The guard in the source is
`if (technicalAnalysis.rsi)`, a truthiness check: an rsi of exactly 0 is
treated like an absent reading and leaves the vote NEUTRAL. -/
def rsiVote (rsi : Option ℚ) : Vote :=
  if truthy rsi then
    let r := rsi.getD 0
    if r < 30 then Vote.BULLISH
    else if r > 70 then Vote.BEARISH
    else Vote.NEUTRAL
  else Vote.NEUTRAL

/-- The MACD branch of `generateSignals`: BULLISH needs both
`histogram > 0` and `MACD > signal`; otherwise BEARISH iff
`histogram < 0`.  The guard `if (technicalAnalysis.macd)` is on an
object, hence plain presence. -/
def macdVote (macd : Option Macd) : Vote :=
  match macd with
  | some m =>
    if m.histogram > 0 && m.MACD > m.signal then Vote.BULLISH
    else if m.histogram < 0 then Vote.BEARISH
    else Vote.NEUTRAL
  | none => Vote.NEUTRAL

/-- The moving-average branch of `generateSignals`: evaluated only when
`ema20 && sma20` is truthy, and then always BULLISH or BEARISH. -/
def maVote (ema20 sma20 : Option ℚ) : Vote :=
  if truthy ema20 && truthy sma20 then
    if ema20.getD 0 > sma20.getD 0 then Vote.BULLISH else Vote.BEARISH
  else Vote.NEUTRAL

/-- One counter update of `generateSignals`: each branch that sets a
BULLISH (resp. BEARISH) vote also increments `bullishCount`
(resp. `bearishCount`); NEUTRAL branches leave both counters alone. -/
def tallyOf (v : Vote) (acc : ℕ × ℕ) : ℕ × ℕ :=
  match v with
  | Vote.BULLISH => (acc.1 + 1, acc.2)
  | Vote.BEARISH => (acc.1, acc.2 + 1)
  | Vote.NEUTRAL => acc

/-- The per-indicator votes recorded in `signals.signals`
(`volume` is initialised NEUTRAL and never written). -/
structure SignalVotes where
  rsi : Vote
  macd : Vote
  ma : Vote
  volume : Vote
deriving DecidableEq, Repr

/-- The object returned by `generateSignals`. -/
structure SignalSet where
  overallSignal : Signal
  overallTrend : Vote
  signals : SignalVotes
  confidence : ℚ
deriving DecidableEq, Repr

/-- `generateSignals(technicalAnalysis)`: three sequential vote branches
accumulate the two counters, then the overall verdict compares them; on a
tie every defaulted field (HOLD / NEUTRAL / confidence 0) survives. -/
def generateSignals (ta : TechnicalAnalysis) : SignalSet :=
  let rsiSig := rsiVote ta.rsi
  let macdSig := macdVote ta.macd
  let maSig := maVote ta.ema20 ta.sma20
  let counts := tallyOf maSig (tallyOf macdSig (tallyOf rsiSig (0, 0)))
  let votes : SignalVotes := ⟨rsiSig, macdSig, maSig, Vote.NEUTRAL⟩
  if counts.1 > counts.2 then
    ⟨Signal.BUY, Vote.BULLISH, votes, (counts.1 : ℚ) / 3 * 100⟩
  else if counts.2 > counts.1 then
    ⟨Signal.SELL, Vote.BEARISH, votes, (counts.2 : ℚ) / 3 * 100⟩
  else
    ⟨Signal.HOLD, Vote.NEUTRAL, votes, 0⟩

/-- The vote triple of `generateSignals`, in source order, used to state
the tally characterisation. -/
def voteList (ta : TechnicalAnalysis) : List Vote :=
  [rsiVote ta.rsi, macdVote ta.macd, maVote ta.ema20 ta.sma20]

/-! ## CryptoService: key levels -/

/-- The pair of accumulating level lists `(resistance, support)`. -/
def LevelAcc : Type := List ℚ × List ℚ

/-- The body of the swing-point loop of `findKeyLevels` at index `i`:
a swing high needs `high[i]` strictly above the highs at `i-1`, `i-2`,
`i+1`, `i+2` (and dually with lows for a swing low); a found level is
appended unless already present (`includes` check). -/
def swingStep (cs : List Candle) (acc : List ℚ × List ℚ) (i : ℕ) :
    List ℚ × List ℚ :=
  match cs.get? (i - 2), cs.get? (i - 1), cs.get? i,
        cs.get? (i + 1), cs.get? (i + 2) with
  | some a, some b, some c, some d, some e =>
    let res :=
      if c.high > b.high && c.high > a.high && c.high > d.high &&
         c.high > e.high then
        (if acc.1.contains c.high then acc.1 else acc.1 ++ [c.high])
      else acc.1
    let sup :=
      if c.low < b.low && c.low < a.low && c.low < d.low &&
         c.low < e.low then
        (if acc.2.contains c.low then acc.2 else acc.2 ++ [c.low])
      else acc.2
    (res, sup)
  | _, _, _, _, _ => acc

/-- The loop `for (let i = 2; i < recentCandles.length - 2; i++)` of
`findKeyLevels`, collecting `(resistance, support)`. -/
def findSwingLevels (cs : List Candle) : List ℚ × List ℚ :=
  (List.range' 2 (cs.length - 4)).foldl (swingStep cs) ([], [])

/-- Insertion into a list sorted by `le`, for the comparator sorts. -/
def insertBy {α : Type} (le : α → α → Bool) (x : α) : List α → List α
  | [] => [x]
  | h :: t => if le x h then x :: h :: t else h :: insertBy le x t

/-- `array.sort(comparator)` (insertion sort; the source only requires a
sorted result). -/
def sortBy {α : Type} (le : α → α → Bool) (l : List α) : List α :=
  l.foldr (insertBy le) []

/-- The result of `findKeyLevels`. -/
structure KeyLevels where
  support : List ℚ
  resistance : List ℚ
deriving DecidableEq, Repr

/-- `findKeyLevels(cryptoData)`: take the 1d series (empty result when
absent), restrict to the trailing 50 candles, collect the swing levels,
sort resistance descending and support ascending, cap each at 3. -/
def findKeyLevels (data : CryptoData) : KeyLevels :=
  match (data.timeframes.find? fun p => p.1 == "1d").map (fun p => p.2) with
  | none => ⟨[], []⟩
  | some dailyData =>
    let recentCandles := takeLast 50 dailyData.candles
    let levels := findSwingLevels recentCandles
    { support := (sortBy (fun a b => a ≤ b) levels.2).take 3
      resistance := (sortBy (fun a b => b ≤ a) levels.1).take 3 }

/-! ## PolymarketService: sentiment -/

/-- One prediction market, after the enrichment step of
`fetchRelatedMarkets` (a failing per-market price fetch degrades `price`,
`volume` and `liquidity` to 0, so the three numeric fields are always
set; `market.price || 0` in `analyzeMarketSentiment` is then the
identity). -/
structure Market where
  id : String
  question : String
  description : Option String
  tags : Option (List String)
  price : ℚ
  volume : ℚ
  liquidity : ℚ
deriving DecidableEq, Repr

/-- `string.toLowerCase()`, as the character-wise case map over the
string's characters. -/
def jsToLower (s : String) : String :=
  String.mk (s.data.map Char.toLower)

/-- `string.toUpperCase()`, as the character-wise case map over the
string's characters. -/
def jsToUpper (s : String) : String :=
  String.mk (s.data.map Char.toUpper)

/-- Whether the first character list starts the second. -/
def charsStart : List Char → List Char → Bool
  | [], _ => true
  | _ :: _, [] => false
  | a :: as, b :: bs => a == b && charsStart as bs

/-- Whether the first character list occurs inside the second. -/
def charsInside (pattern : List Char) : List Char → Bool
  | [] => charsStart pattern []
  | b :: rest => charsStart pattern (b :: rest) || charsInside pattern rest

/-- JavaScript `string.includes(pattern)`: substring containment. -/
def strContains (s pattern : String) : Bool :=
  charsInside pattern.toList s.toList

/-- The fixed bullish keyword list of `analyzeMarketSentiment`. -/
def bullishKeywords : List String :=
  ["reach", "exceed", "above", "higher", "rise", "increase", "gain",
   "bull", "moon", "pump", "surge", "rally", "breakout", " ATH",
   "all-time high"]

/-- The fixed bearish keyword list of `analyzeMarketSentiment`. -/
def bearishKeywords : List String :=
  ["fall", "below", "lower", "drop", "decrease", "decline", "bear",
   "crash", "dump", "plunge", "collapse", "breakdown"]

/-- The `{direction, score}` object returned by `analyzeMarketSentiment`. -/
structure MarketSentiment where
  direction : Vote
  score : ℚ
deriving DecidableEq, Repr

/-- The keyword classification of `analyzeMarketSentiment`: lower-case
question and description, run the bullish keyword pass then the bearish
pass; the bearish pass overwrites, so a bearish match is authoritative. -/
def marketDirection (market : Market) : Vote :=
  let question := jsToLower market.question
  let description := jsToLower (match market.description with
    | some d => d
    | none => "")
  let afterBullish := bullishKeywords.foldl
    (fun dir keyword =>
      if strContains question keyword || strContains description keyword
      then Vote.BULLISH else dir)
    Vote.NEUTRAL
  bearishKeywords.foldl
    (fun dir keyword =>
      if strContains question keyword || strContains description keyword
      then Vote.BEARISH else dir)
    afterBullish

/-- `analyzeMarketSentiment(market, symbol)`: classify the direction by
keywords, then add the direction-dependent modifier to the base score of
50.  A bullish market adds `price * 30`; a bearish market adds
`(1 - price) * 30` — the modifier is added, not subtracted, in both
branches. -/
def analyzeMarketSentiment (market : Market) (_symbol : String) :
    MarketSentiment :=
  let price := market.price
  let direction := marketDirection market
  let scoreModifier : ℚ :=
    if direction = Vote.BULLISH then price * 30
    else if direction = Vote.BEARISH then (1 - price) * 30
    else 0
  ⟨direction, 50 + scoreModifier⟩

/-- The fixed 10-entry symbol-to-search-term table of
`mapSymbolToSearchTerm`. -/
def symbolMapping : List (String × String) :=
  [("BTC", "Bitcoin"), ("ETH", "Ethereum"), ("SOL", "Solana"),
   ("ADA", "Cardano"), ("DOT", "Polkadot"), ("MATIC", "Polygon"),
   ("AVAX", "Avalanche"), ("LINK", "Chainlink"), ("UNI", "Uniswap"),
   ("ATOM", "Cosmos")]

/-- `mapSymbolToSearchTerm(symbol)`: table lookup, falling back to the
literal symbol. -/
def mapSymbolToSearchTerm (symbol : String) : String :=
  ((symbolMapping.find? fun p => p.1 == symbol).map fun p => p.2).getD
    symbol

/-- The client-side filter of `fetchRelatedMarkets`: case-insensitive
substring match of the search term against question, optional description
(optional chaining: an absent description never matches) and optional
tags. -/
def marketMatches (searchTerm : String) (m : Market) : Bool :=
  strContains (jsToLower m.question) (jsToLower searchTerm) ||
  (match m.description with
   | some d => strContains (jsToLower d) (jsToLower searchTerm)
   | none => false) ||
  (match m.tags with
   | some tags => tags.any fun tag =>
       strContains (jsToLower tag) (jsToLower searchTerm)
   | none => false)

/-- Whether the market-listing request of `fetchRelatedMarkets` succeeded
(yielding the single page of up to 50 active markets) or failed. -/
inductive ListingOutcome where
  | ok (available : List Market)
  | error
deriving Repr

/-- `fetchRelatedMarkets(searchTerm)`: filter the listed markets by
`marketMatches`; a failing listing request is caught inside and yields the
empty list (the enrichment step keeps the market set unchanged and is
already reflected in the `Market` fields). -/
def fetchRelatedMarkets (outcome : ListingOutcome) (searchTerm : String) :
    List Market :=
  match outcome with
  | ListingOutcome.ok available => available.filter (marketMatches searchTerm)
  | ListingOutcome.error => []

/-- The log-volume weight `Math.log(market.volume + 1) + 1` of
`calculateSentiment`. -/
noncomputable def marketWeight (m : Market) : ℝ :=
  Real.log ((m.volume : ℝ) + 1) + 1

/-- The accumulated `totalScore` of `calculateSentiment`:
`Σ sentiment.score * weight`. -/
noncomputable def totalScoreOf (markets : List Market) (symbol : String) :
    ℝ :=
  (markets.map fun m =>
    ((analyzeMarketSentiment m symbol).score : ℝ) * marketWeight m).sum

/-- The accumulated `totalVolume` of `calculateSentiment`: `Σ weight`. -/
noncomputable def totalWeightOf (markets : List Market) : ℝ :=
  (markets.map marketWeight).sum

/-- The `bullishMarkets` counter of `calculateSentiment`. -/
def bullishCountOf (markets : List Market) (symbol : String) : ℕ :=
  markets.countP fun m =>
    (analyzeMarketSentiment m symbol).direction == Vote.BULLISH

/-- The `bearishMarkets` counter of `calculateSentiment`. -/
def bearishCountOf (markets : List Market) (symbol : String) : ℕ :=
  markets.countP fun m =>
    (analyzeMarketSentiment m symbol).direction == Vote.BEARISH

/-- JavaScript `Math.round`: round half up. -/
noncomputable def jsRound (x : ℝ) : ℝ :=
  ((⌊x + 1 / 2⌋ : ℤ) : ℝ)

/-- `generateSentimentAnalysis(score, totalMarkets, bullish, bearish)`:
the narrative string (numeric interpolation of the three counters via
their decimal rendering). -/
noncomputable def generateSentimentAnalysis (score : ℝ)
    (totalMarkets bullish bearish : ℕ) : String :=
  let sentiment :=
    if score > 60 then "optimistic"
    else if score < 40 then "pessimistic"
    else "neutral"
  let base := "Polymarket sentiment is " ++ sentiment ++ " with " ++
    toString totalMarkets ++ " active prediction markets. "
  let counts :=
    if bullish > bearish then
      toString bullish ++ " markets show bullish sentiment while " ++
      toString bearish ++ " show bearish sentiment. "
    else if bearish > bullish then
      toString bearish ++ " markets show bearish sentiment while " ++
      toString bullish ++ " show bullish sentiment. "
    else ""
  let closing := "Crowd wisdom suggests " ++
    (if sentiment = "optimistic" then "potential upside"
     else if sentiment = "pessimistic" then "potential downside"
     else "sideways movement") ++ "."
  base ++ counts ++ closing

/-- The object returned by `getSentimentData` / `calculateSentiment`.
The two degraded paths omit the per-direction counters and (for the
outer catch) the narrative, hence the `Option` fields.  The `markets`
field keeps the top markets themselves; the source maps them to display
strings, a presentation step not modelled. -/
structure SentimentResult where
  score : ℝ
  confidence : ℝ
  sources : ℕ
  bullishMarkets : Option ℕ
  bearishMarkets : Option ℕ
  trend : Vote
  markets : List Market
  analysis : Option String

/-- `calculateSentiment(markets, symbol)`: neutral constant on the empty
set; otherwise log-volume weighted average score, confidence capped at
100, trend from the unrounded weighted score, and the top three markets
by volume. -/
noncomputable def calculateSentiment (markets : List Market)
    (symbol : String) : SentimentResult :=
  match markets with
  | [] =>
    { score := 50
      confidence := 0
      sources := 0
      bullishMarkets := none
      bearishMarkets := none
      trend := Vote.NEUTRAL
      markets := []
      analysis := some "No prediction markets found for this asset" }
  | _ =>
    let totalScore := totalScoreOf markets symbol
    let totalVolume := totalWeightOf markets
    let bullish := bullishCountOf markets symbol
    let bearish := bearishCountOf markets symbol
    let weightedScore := totalScore / totalVolume
    let confidence :=
      min (totalVolume / (markets.length : ℝ) * 10) 100
    let trend :=
      if weightedScore > 60 then Vote.BULLISH
      else if weightedScore < 40 then Vote.BEARISH
      else Vote.NEUTRAL
    let topMarkets :=
      (sortBy (fun a b => b.volume ≤ a.volume) markets).take 3
    { score := jsRound weightedScore
      confidence := jsRound confidence
      sources := markets.length
      bullishMarkets := some bullish
      bearishMarkets := some bearish
      trend := trend
      markets := topMarkets
      analysis := some
        (generateSentimentAnalysis weightedScore markets.length bullish
          bearish) }

/-- The literal neutral object returned by the outer catch of
`getSentimentData` (reachable only through failures that
`fetchRelatedMarkets` does not already absorb). -/
def neutralFallback : SentimentResult :=
  { score := 50
    confidence := 0
    sources := 0
    bullishMarkets := none
    bearishMarkets := none
    trend := Vote.NEUTRAL
    markets := []
    analysis := none }

/-- One uncached `getSentimentData(symbol)` call: map the symbol to its
search term, list and filter markets (a listing failure is caught inside
`fetchRelatedMarkets` and yields the empty list), and score the result.
No exception escapes: every failure path lands in `calculateSentiment`
of the empty list or in `neutralFallback`. -/
noncomputable def getSentimentData (symbol : String)
    (outcome : ListingOutcome) : SentimentResult :=
  calculateSentiment
    (fetchRelatedMarkets outcome (mapSymbolToSearchTerm symbol)) symbol

/-- The observable fields of the neutral degraded sentiment value. -/
def isNeutralDefault (r : SentimentResult) : Prop :=
  r.score = 50 ∧ r.confidence = 0 ∧ r.trend = Vote.NEUTRAL ∧
  r.sources = 0 ∧ r.markets = []

/-! ## Command handler (src/handlers/analyze.js) and config security -/

/-- `config.security.maxSymbolLength`. -/
def maxSymbolLength : ℕ := 10

/-- Membership in the character class of `config.security.allowedSymbols`
(`^[A-Z0-9]+$`). -/
def allowedSymbolChar (c : Char) : Bool :=
  (decide ('A' ≤ c) && decide (c ≤ 'Z')) ||
  (decide ('0' ≤ c) && decide (c ≤ '9'))

/-- The symbol validity check described by the configuration's security
section and the spec: the regex `^[A-Z0-9]+$` together with the length
cap of 10.  No code in the repository ever evaluates these constants. -/
def validSymbol (s : String) : Bool :=
  0 < s.length && s.length ≤ maxSymbolLength &&
  s.toList.all allowedSymbolChar

/-- What `execute` does before any network call. -/
inductive ExecStep where
  | validationError
  | fetchData (symbol : String) (timeframe : Option String)
deriving DecidableEq, Repr

/-- The pre-fetch control flow of `execute(interaction)`: read the symbol
option, uppercase it, and proceed straight to the progress message and
`fetchCryptoData`.  There is no validation branch: no input ever maps to
`ExecStep.validationError`. -/
def executePreFetch (symbolInput : String) (timeframe : Option String) :
    ExecStep :=
  ExecStep.fetchData (jsToUpper symbolInput) timeframe

/-! ## Concrete inputs used by counterexamples and witnesses -/

/-- A candle with the given high and low and all other fields zero. -/
def mkCandle (h l : ℚ) : Candle :=
  { timestamp := 0, openPrice := 0, high := h, low := l, close := 0,
    volume := 0, closeTime := 0, quoteVolume := 0, trades := 0,
    takerBuyVolume := 0, takerBuyQuoteVolume := 0 }

/-- Six candles with strictly increasing highs and lows. -/
def incCandles : List Candle :=
  [mkCandle 1 0, mkCandle 2 1, mkCandle 3 2, mkCandle 4 3, mkCandle 5 4,
   mkCandle 6 5]

/-- A daily series over `incCandles`. -/
def incSeries : TimeframeSeries :=
  { interval := "1d", candles := incCandles, currentPrice := 6,
    high24h := 6, low24h := 0, volume24h := 0 }

/-- A snapshot whose only timeframe is the increasing daily series. -/
def incSnapshot : CryptoData :=
  { symbol := "BTC", currentPrice := none, priceChange24h := none,
    priceChangePercent24h := none, volume24h := none,
    timeframes := [("1d", incSeries)] }

/-- Two distinct snapshots for the cache scenario. -/
def snapshotA : CryptoData :=
  { symbol := "BTC", currentPrice := some 100, priceChange24h := none,
    priceChangePercent24h := none, volume24h := none, timeframes := [] }

/-- See `snapshotA`. -/
def snapshotB : CryptoData :=
  { symbol := "BTC", currentPrice := some 200, priceChange24h := none,
    priceChangePercent24h := none, volume24h := none, timeframes := [] }

/-- A market whose question matches the bearish keywords `fall` and
`below` and no bullish keyword, priced at 1/2. -/
def bearishFallMarket : Market :=
  { id := "m1"
    question := "Will Bitcoin fall below $50000 by March?"
    description := none
    tags := none
    price := 1/2
    volume := 0
    liquidity := 0 }

/-- A matched market with zero reported volume (the degraded enrichment
value), used to instantiate the aggregate confidence bounds. -/
def plainVolumeMarket : Market :=
  { id := "m2"
    question := "Will Bitcoin reach $100000 this year?"
    description := none
    tags := none
    price := 1/4
    volume := 0
    liquidity := 0 }

/-- Whether every adjacent pair of the list satisfies `r` (used to state
strict monotonicity of a candle series executably). -/
def adjacentAllB {α : Type} (r : α → α → Bool) : List α → Bool
  | [] => true
  | [_] => true
  | a :: b :: t => r a b && adjacentAllB r (b :: t)

/-! ## Theorems -/

/-- Helper: `adjacentAllB` gives `r` on the elements at any two
consecutive positions. -/
theorem adjacentAllB_rel {α : Type} {r : α → α → Bool} :
    ∀ {l : List α}, adjacentAllB r l = true →
      ∀ {i : ℕ} {x y : α}, l.get? i = some x → l.get? (i + 1) = some y →
        r x y = true := by
  intro l
  induction l with
  | nil =>
    intro h i x y hx hy
    simp at hx
  | cons a t ih =>
    intro h i x y hx hy
    cases t with
    | nil =>
      cases i with
      | zero => simp at hy
      | succ n => simp at hx
    | cons b t' =>
      rw [adjacentAllB, Bool.and_eq_true] at h
      cases i with
      | zero =>
        rw [List.get?_cons_zero] at hx
        rw [List.get?_cons_succ, List.get?_cons_zero] at hy
        cases hx
        cases hy
        exact h.1
      | succ n =>
        rw [List.get?_cons_succ] at hx hy
        exact ih h.2 hx hy

/-- Helper: under strictly increasing highs and lows every iteration of
the swing-point loop of `findKeyLevels` leaves the accumulator
unchanged: the swing-high test fails against the next candle's high and
the swing-low test fails against the previous candle's low. -/
theorem swingStep_eq_self (cs : List Candle)
    (hhigh : adjacentAllB (fun a b => decide (a.high < b.high)) cs = true)
    (hlow : adjacentAllB (fun a b => decide (a.low < b.low)) cs = true)
    (acc : List ℚ × List ℚ) (i : ℕ) :
    swingStep cs acc i = acc := by
  unfold swingStep
  rcases ha : cs.get? (i - 2) with _ | a <;>
    rcases hb : cs.get? (i - 1) with _ | b <;>
    rcases hc : cs.get? i with _ | c <;>
    rcases hd : cs.get? (i + 1) with _ | d <;>
    rcases he : cs.get? (i + 2) with _ | e <;>
    try rfl
  have hcd : c.high < d.high :=
    of_decide_eq_true (adjacentAllB_rel hhigh hc hd)
  have hbc : ¬ c.low < b.low := by
    cases i with
    | zero =>
      have hb0 : cs.get? 0 = some b := hb
      rw [hb0] at hc
      cases hc
      exact lt_irrefl _
    | succ n =>
      have hb' : cs.get? n = some b := hb
      exact lt_asymm (of_decide_eq_true (adjacentAllB_rel hlow hb' hc))
  have hcdF : decide (c.high > d.high) = false :=
    decide_eq_false (lt_asymm hcd)
  have hbcF : decide (c.low < b.low) = false := decide_eq_false hbc
  simp [hcdF, hbcF]

/-- C1: the claim says `analyze` validates the symbol against
`^[A-Z0-9]+$` with length at most 10 before any I/O and fails with
`ValidationError` otherwise.  The handler performs no validation at all:
it uppercases the input and proceeds straight to the data fetch for every
input, including ones the configuration's own `security.allowedSymbols`
and `maxSymbolLength` constants reject. -/
theorem execute_skips_symbol_validation :
    validSymbol "BITCOIN$" = false ∧
    executePreFetch "bitcoin$" none = ExecStep.fetchData "BITCOIN$" none ∧
    ∀ (input : String) (tf : Option String),
      executePreFetch input tf = ExecStep.fetchData (jsToUpper input) tf := by
  refine ⟨by decide, by decide, ?_⟩
  intro input tf
  rfl

/-- C2: the claim says a bearish-classified market scores below 50.  The
code adds `(1 - price) * 30` to the base 50, so the bearish market
`bearishFallMarket` (price 1/2) is classified BEARISH yet scores 65,
strictly above the neutral 50. -/
theorem bearish_market_scores_above_neutral :
    analyzeMarketSentiment bearishFallMarket "BTC" =
      ⟨Vote.BEARISH, 65⟩ ∧ (50 : ℚ) < 65 := by
  have hd : marketDirection bearishFallMarket = Vote.BEARISH := by decide
  constructor
  · simp only [analyzeMarketSentiment, hd]
    norm_num [MarketSentiment.mk.injEq, bearishFallMarket]
  · norm_num

/-- Helper: propositional characterisation of the MACD branch of
`generateSignals`. -/
theorem macdVote_eq (m : Macd) :
    macdVote (some m) =
      (if m.histogram > 0 ∧ m.MACD > m.signal then Vote.BULLISH
       else if m.histogram < 0 then Vote.BEARISH
       else Vote.NEUTRAL) := by
  by_cases h1 : m.histogram > 0 <;> by_cases h2 : m.MACD > m.signal <;>
    by_cases h3 : m.histogram < 0 <;> simp [macdVote, h1, h2, h3]

/-- C4: the MACD vote is BULLISH precisely under the strict conjunction
`histogram > 0` and `MACD > signal` (so a positive histogram with
`MACD ≤ signal` yields NEUTRAL); a negative histogram yields BEARISH;
every remaining case — anything failing the conjunction and not
negative — yields NEUTRAL; and conversely a BULLISH vote implies both
conjuncts. -/
theorem macdVote_strict_and (m : Macd) :
    (m.histogram > 0 → m.MACD > m.signal → macdVote (some m) = Vote.BULLISH) ∧
    (m.histogram > 0 → m.MACD ≤ m.signal → macdVote (some m) = Vote.NEUTRAL) ∧
    (m.histogram < 0 → macdVote (some m) = Vote.BEARISH) ∧
    (¬(m.histogram > 0 ∧ m.MACD > m.signal) → ¬ m.histogram < 0 →
      macdVote (some m) = Vote.NEUTRAL) ∧
    (macdVote (some m) = Vote.BULLISH →
      m.histogram > 0 ∧ m.MACD > m.signal) := by
  refine ⟨?_, ?_, ?_, ?_, ?_⟩
  · intro h1 h2
    simp [macdVote_eq, h1, h2]
  · intro h1 h2
    simp [macdVote_eq, h1, not_lt.mpr h2, asymm h1]
  · intro h1
    simp [macdVote_eq, h1, lt_asymm h1]
  · intro h1 h2
    simp [macdVote_eq, h1, h2]
  · intro hB
    rw [macdVote_eq] at hB
    by_cases h1 : m.histogram > 0 ∧ m.MACD > m.signal
    · exact h1
    · rw [if_neg h1] at hB
      by_cases h2 : m.histogram < 0
      · rw [if_pos h2] at hB
        exact absurd hB (by simp)
      · rw [if_neg h2] at hB
        exact absurd hB (by simp)

/-- C4 witness: the spec's three MACD examples plus the boundary case
histogram = 0 with MACD > signal (NEUTRAL), via `macdVote_strict_and`
(`Macd` fields are line, signal, histogram in that order). -/
theorem macdVote_strict_and_witness :
    macdVote (some ⟨2, 1, 1⟩) = Vote.BULLISH ∧
    macdVote (some ⟨1, 2, 1⟩) = Vote.NEUTRAL ∧
    macdVote (some ⟨5, 5, -1⟩) = Vote.BEARISH ∧
    macdVote (some ⟨2, 1, 0⟩) = Vote.NEUTRAL :=
  ⟨(macdVote_strict_and ⟨2, 1, 1⟩).1 (by norm_num) (by norm_num),
   (macdVote_strict_and ⟨1, 2, 1⟩).2.1 (by norm_num) (by norm_num),
   (macdVote_strict_and ⟨5, 5, -1⟩).2.2.1 (by norm_num),
   (macdVote_strict_and ⟨2, 1, 0⟩).2.2.2.1 (by norm_num) (by norm_num)⟩

/-- C5 counterexample: rsi = 0 is present and below 30, so the claim
demands a BULLISH vote, but the truthiness guard
`if (technicalAnalysis.rsi)` treats 0 as absent and the vote stays
NEUTRAL. -/
theorem rsiVote_zero_is_neutral :
    rsiVote (some 0) = Vote.NEUTRAL ∧ (0 : ℚ) < 30 := by decide

/-- C5 amended: for every present nonzero rsi value the thresholds hold
as claimed (BULLISH below 30, BEARISH above 70, otherwise NEUTRAL); an
rsi of exactly 0 is treated as absent by the truthiness guard and yields
NEUTRAL, as does a missing reading. -/
theorem rsiVote_thresholds (r : ℚ) (hr : r ≠ 0) :
    (r < 30 → rsiVote (some r) = Vote.BULLISH) ∧
    (r > 70 → rsiVote (some r) = Vote.BEARISH) ∧
    (30 ≤ r → r ≤ 70 → rsiVote (some r) = Vote.NEUTRAL) ∧
    rsiVote none = Vote.NEUTRAL ∧
    rsiVote (some 0) = Vote.NEUTRAL := by
  refine ⟨?_, ?_, ?_, by decide, by decide⟩
  · intro h
    simp [rsiVote, truthy, hr, h]
  · intro h
    simp [rsiVote, truthy, hr, h, not_lt.mpr (by linarith : (30 : ℚ) ≤ r)]
  · intro h1 h2
    simp [rsiVote, truthy, hr, not_lt.mpr h1, not_lt.mpr h2]

/-- C5 witness: rsi 25 is nonzero and below 30, so the vote is BULLISH,
via `rsiVote_thresholds`. -/
theorem rsiVote_thresholds_witness :
    rsiVote (some 25) = Vote.BULLISH :=
  (rsiVote_thresholds 25 (by norm_num)).1 (by norm_num)

/-- C9: the series built by `fetchKlineData` reads the last candle's
close (and the trailing-window aggregates), so the computation is
undefined on an empty candle list: the embedding returns `none` exactly
there and succeeds on every non-empty list.  The spec states no
non-emptiness precondition. -/
theorem fetchKlineDataProcess_requires_candles (interval : String) :
    fetchKlineDataProcess interval [] = none ∧
    ∀ (c : Candle) (cs : List Candle),
      (fetchKlineDataProcess interval (c :: cs)).isSome = true := by
  refine ⟨rfl, ?_⟩
  intro c cs
  cases h : (c :: cs).getLast? with
  | none =>
    exact absurd (List.getLast?_eq_none_iff.mp h) (List.cons_ne_nil c cs)
  | some last =>
    simp [fetchKlineDataProcess, h]

/-- Helper: folding a function that fixes every accumulator returns the
initial accumulator. -/
theorem foldl_fixed {α β : Type} (f : β → α → β)
    (h : ∀ b a, f b a = b) :
    ∀ (l : List α) (b : β), l.foldl f b = b := by
  intro l
  induction l with
  | nil => intro b; rfl
  | cons a t ih =>
    intro b
    rw [List.foldl_cons, h, ih]

/-- Helper: `adjacentAllB` survives dropping a front segment. -/
theorem adjacentAllB_drop {α : Type} (r : α → α → Bool) :
    ∀ (n : ℕ) (l : List α), adjacentAllB r l = true →
      adjacentAllB r (l.drop n) = true := by
  intro n
  induction n with
  | zero => intro l h; exact h
  | succ m ih =>
    intro l h
    cases l with
    | nil => rfl
    | cons a t =>
      rw [List.drop_succ_cons]
      refine ih t ?_
      cases t with
      | nil => rfl
      | cons b t' =>
        rw [adjacentAllB, Bool.and_eq_true] at h
        exact h.2

/-- C7: when the daily series has strictly increasing highs and lows
(every adjacent pair strictly increases), no index passes the four
strict swing-high comparisons or the four strict swing-low comparisons,
so `findKeyLevels` returns empty support and resistance lists. -/
theorem findKeyLevels_empty_of_increasing (data : CryptoData)
    (series : TimeframeSeries)
    (h1d : (data.timeframes.find? fun p => p.1 == "1d").map
      (fun p => p.2) = some series)
    (hhigh : adjacentAllB (fun a b => decide (a.high < b.high))
      series.candles = true)
    (hlow : adjacentAllB (fun a b => decide (a.low < b.low))
      series.candles = true) :
    findKeyLevels data = ⟨[], []⟩ := by
  have hh := adjacentAllB_drop _ (series.candles.length - 50)
    series.candles hhigh
  have hl := adjacentAllB_drop _ (series.candles.length - 50)
    series.candles hlow
  have hswing : findSwingLevels (takeLast 50 series.candles) = ([], []) := by
    unfold findSwingLevels
    exact foldl_fixed _ (swingStep_eq_self _ hh hl) _ ([], [])
  unfold findKeyLevels
  rw [h1d]
  simp [hswing, sortBy]

/-- C7 witness: the six-candle strictly increasing daily snapshot yields
empty key levels, via `findKeyLevels_empty_of_increasing`. -/
theorem findKeyLevels_empty_of_increasing_witness :
    findKeyLevels incSnapshot = ⟨[], []⟩ :=
  findKeyLevels_empty_of_increasing incSnapshot incSeries (by decide)
    (by decide) (by decide)

/-- C3: for every input, the overall signal is the three-way comparison
of the bullish and bearish tallies over the three votes: BUY when
bullish votes outnumber bearish ones, SELL in the opposite case, HOLD on
a tie — in particular it is always one of the three values. -/
theorem generateSignals_three_way (ta : TechnicalAnalysis) :
    (generateSignals ta).overallSignal =
      (if (voteList ta).count Vote.BULLISH > (voteList ta).count Vote.BEARISH
       then Signal.BUY
       else if (voteList ta).count Vote.BEARISH > (voteList ta).count Vote.BULLISH
       then Signal.SELL
       else Signal.HOLD) ∧
    ((generateSignals ta).overallSignal = Signal.BUY ∨
     (generateSignals ta).overallSignal = Signal.SELL ∨
     (generateSignals ta).overallSignal = Signal.HOLD) := by
  constructor
  · cases hr : rsiVote ta.rsi <;>
      cases hm : macdVote ta.macd <;>
      cases hma : maVote ta.ema20 ta.sma20 <;>
        simp [generateSignals, voteList, tallyOf, hr, hm, hma,
          List.count_cons]
  · cases hs : (generateSignals ta).overallSignal
    · exact Or.inl rfl
    · exact Or.inr (Or.inl rfl)
    · exact Or.inr (Or.inr rfl)

/-- C8: with the cache populated by a first `fetchCryptoData` call for
the same (symbol, timeframe) at time `t₁`, a second call strictly within
the 60000 ms TTL returns the identical cached snapshot, leaves the cache
untouched and performs no upstream fetch, while a second call at or past
the TTL performs a fresh fetch.  Expiry is decided solely by the
read-time comparison `now - timestamp < cacheTimeout`; no other
transition touches the cache. -/
theorem fetchCryptoData_cache_ttl (symbol : String)
    (timeframe : Option String) (t₁ t₂ : ℕ) (d₁ d₂ : CryptoData) :
    (t₂ - t₁ < cacheTimeout →
      fetchCryptoData symbol timeframe t₂
          (fetchCryptoData symbol timeframe t₁ [] d₁).2.1 d₂ =
        (d₁, (fetchCryptoData symbol timeframe t₁ [] d₁).2.1, false)) ∧
    (cacheTimeout ≤ t₂ - t₁ →
      (fetchCryptoData symbol timeframe t₂
          (fetchCryptoData symbol timeframe t₁ [] d₁).2.1 d₂).2.2 = true) := by
  have hstate : fetchCryptoData symbol timeframe t₁ [] d₁ =
      (d₁, [(cacheKey symbol timeframe, ⟨d₁, t₁⟩)], true) := by
    simp [fetchCryptoData, cacheLookup, cacheSet]
  rw [hstate]
  constructor
  · intro h
    simp [fetchCryptoData, cacheLookup, h]
  · intro h
    simp [fetchCryptoData, cacheLookup, cacheSet, not_lt.mpr h]

/-- C8 witness: a second call 1000 ms after the first is served from the
cache without fetching; a second call 60000 ms after the first fetches
anew, via `fetchCryptoData_cache_ttl`. -/
theorem fetchCryptoData_cache_ttl_witness :
    fetchCryptoData "BTC" none 1000
        (fetchCryptoData "BTC" none 0 [] snapshotA).2.1 snapshotB =
      (snapshotA, (fetchCryptoData "BTC" none 0 [] snapshotA).2.1,
        false) ∧
    (fetchCryptoData "BTC" none 60000
        (fetchCryptoData "BTC" none 0 [] snapshotA).2.1 snapshotB).2.2 =
      true :=
  ⟨(fetchCryptoData_cache_ttl "BTC" none 0 1000 snapshotA snapshotB).1
      (by decide),
   (fetchCryptoData_cache_ttl "BTC" none 0 60000 snapshotA snapshotB).2
      (by decide)⟩

/-- C6: `getSentimentData` degrades to the neutral value — score 50,
confidence 0, NEUTRAL trend, zero sources, empty market list — both when
the market-listing fetch fails (caught inside `fetchRelatedMarkets`,
yielding the empty market set) and when zero markets match the search
term; the outer catch object `neutralFallback` carries the same fields.
No error propagates to the caller. -/
theorem sentiment_degrades_to_neutral :
    (∀ symbol,
      isNeutralDefault (getSentimentData symbol ListingOutcome.error)) ∧
    (∀ symbol available,
      fetchRelatedMarkets (ListingOutcome.ok available)
          (mapSymbolToSearchTerm symbol) = [] →
      isNeutralDefault
        (getSentimentData symbol (ListingOutcome.ok available))) ∧
    isNeutralDefault neutralFallback := by
  refine ⟨?_, ?_, ?_⟩
  · intro symbol
    simp [getSentimentData, fetchRelatedMarkets, calculateSentiment,
      isNeutralDefault]
  · intro symbol available h
    simp [getSentimentData, h, calculateSentiment, isNeutralDefault]
  · simp [neutralFallback, isNeutralDefault]

/-- C6 witness: an available-market list with no match for "BTC" (here
the empty listing) yields the neutral default, via
`sentiment_degrades_to_neutral`. -/
theorem sentiment_degrades_to_neutral_witness :
    isNeutralDefault (getSentimentData "BTC" (ListingOutcome.ok [])) :=
  sentiment_degrades_to_neutral.2.1 "BTC" [] rfl

/-- Helper: each log-volume weight is at least 1 when the market volume
is non-negative. -/
theorem one_le_marketWeight (m : Market) (h : 0 ≤ m.volume) :
    1 ≤ marketWeight m := by
  unfold marketWeight
  have h0 : (0 : ℝ) ≤ (m.volume : ℝ) := by exact_mod_cast h
  have h1 : (1 : ℝ) ≤ (m.volume : ℝ) + 1 := by linarith
  have h2 := Real.log_nonneg h1
  linarith

/-- Helper: the weight sum dominates the market count when all volumes
are non-negative. -/
theorem length_le_weight_sum :
    ∀ (l : List Market), (∀ m ∈ l, 0 ≤ m.volume) →
      (l.length : ℝ) ≤ totalWeightOf l := by
  intro l
  induction l with
  | nil =>
    intro h
    simp [totalWeightOf]
  | cons a t ih =>
    intro h
    have ha := one_le_marketWeight a (h a (by simp))
    have ht := ih fun m hm => h m (by simp [hm])
    unfold totalWeightOf at ht ⊢
    simp only [List.map_cons, List.sum_cons, List.length_cons]
    push_cast
    linarith

/-- C10: with a non-empty matched market set of non-negative volumes,
every weight `ln(volume+1)+1` is at least 1, the weight sum is at least
the market count and in particular positive (the weighted-average
division is well-defined), and the returned confidence
`min((Σweight/marketCount)×10, 100)` (rounded) lies in [10, 100]; the
empty market set and the failed fetch return confidence exactly 0. -/
theorem sentiment_confidence_bounds (markets : List Market)
    (symbol : String) (hne : markets ≠ [])
    (hvol : ∀ m ∈ markets, 0 ≤ m.volume) :
    (∀ m ∈ markets, 1 ≤ marketWeight m) ∧
    (markets.length : ℝ) ≤ totalWeightOf markets ∧
    0 < totalWeightOf markets ∧
    10 ≤ (calculateSentiment markets symbol).confidence ∧
    (calculateSentiment markets symbol).confidence ≤ 100 ∧
    (calculateSentiment [] symbol).confidence = 0 ∧
    (getSentimentData symbol ListingOutcome.error).confidence = 0 := by
  cases markets with
  | nil => exact absurd rfl hne
  | cons a t =>
    have hw : ∀ m ∈ a :: t, 1 ≤ marketWeight m :=
      fun m hm => one_le_marketWeight m (hvol m hm)
    have hlen := length_le_weight_sum (a :: t) hvol
    have hnpos : (0 : ℝ) < ((a :: t).length : ℝ) := by
      have : 0 < (a :: t).length := List.length_pos.mpr (List.cons_ne_nil a t)
      exact_mod_cast this
    have hWpos : 0 < totalWeightOf (a :: t) := lt_of_lt_of_le hnpos hlen
    have hdiv : (1 : ℝ) ≤ totalWeightOf (a :: t) / ((a :: t).length : ℝ) :=
      (one_le_div hnpos).mpr hlen
    have hc10 : (10 : ℝ) ≤
        min (totalWeightOf (a :: t) / ((a :: t).length : ℝ) * 10) 100 := by
      refine le_min (by linarith) (by norm_num)
    have hc100 :
        min (totalWeightOf (a :: t) / ((a :: t).length : ℝ) * 10) 100 ≤
          100 := min_le_right _ _
    set c := min (totalWeightOf (a :: t) / ((a :: t).length : ℝ) * 10) 100
      with hcdef
    have hconf : (calculateSentiment (a :: t) symbol).confidence =
        jsRound c := rfl
    have hfl10 : (10 : ℤ) ≤ ⌊c + 1 / 2⌋ := by
      refine Int.le_floor.mpr ?_
      push_cast
      linarith
    have hfl100 : ⌊c + 1 / 2⌋ ≤ (100 : ℤ) := by
      have hlt : ⌊c + 1 / 2⌋ < (101 : ℤ) := by
        refine Int.floor_lt.mpr ?_
        push_cast
        linarith
      omega
    refine ⟨hw, hlen, hWpos, ?_, ?_, rfl, rfl⟩
    · rw [hconf]
      unfold jsRound
      exact_mod_cast hfl10
    · rw [hconf]
      unfold jsRound
      exact_mod_cast hfl100

/-- C10 witness: the singleton matched market with degraded volume 0
gives a weight sum of at least 1 and a confidence in [10, 100], via
`sentiment_confidence_bounds`. -/
theorem sentiment_confidence_bounds_witness :
    (∀ m ∈ [plainVolumeMarket], 1 ≤ marketWeight m) ∧
    (([plainVolumeMarket] : List Market).length : ℝ) ≤
      totalWeightOf [plainVolumeMarket] ∧
    0 < totalWeightOf [plainVolumeMarket] ∧
    10 ≤ (calculateSentiment [plainVolumeMarket] "BTC").confidence ∧
    (calculateSentiment [plainVolumeMarket] "BTC").confidence ≤ 100 ∧
    (calculateSentiment [] "BTC").confidence = 0 ∧
    (getSentimentData "BTC" ListingOutcome.error).confidence = 0 :=
  sentiment_confidence_bounds [plainVolumeMarket] "BTC" (by simp)
    (by
      intro m hm
      rw [List.mem_singleton] at hm
      subst hm
      norm_num [plainVolumeMarket])

end DiscordBot
